import Mathlib

/-
Verification of the walk-trajectory recording app (src/App.tsx) against its
design specification.  The app's core is shallowly embedded below: pixel and
logical coordinates, clock readings and scale factors are rational numbers;
the React component state (the `useState`/`useRef` cells) is an explicit
record; each event handler (key-down, mouse-move, countdown-timer callback,
sampler-interval callback) is a pure state-transition function.
-/

namespace WalkTrace

/-- JS `Math.round(q)` (and the rounding used by `toFixed`): floor of `q + 1/2`,
ties going toward positive infinity.  `Rat.floor` is used so the definition
evaluates inside the kernel. -/
def jsRound (q : ℚ) : ℤ := Rat.floor (q + 1/2)

/-- JS `parseFloat(q.toFixed(2))`: the value rounded to two decimal places
(the string produced by `toFixed(2)` parses back to exactly this rational). -/
def jsToFixed2 (q : ℚ) : ℚ := (jsRound (q * 100) : ℚ) / 100

/-- A recorded sample (interface `Point` of App.tsx): `time` is the integer
millisecond output of `Math.round`, `x`/`y` the 2-decimal rounded logical
coordinates. -/
structure Point where
  time : ℤ
  x : ℚ
  y : ℚ
deriving DecidableEq

/-- The canvas bounding rectangle as returned by `getBoundingClientRect()`:
`right = left + width`, `bottom = top + height`. -/
structure Rect where
  left : ℚ
  top : ℚ
  width : ℚ
  height : ℚ

def Rect.right (r : Rect) : ℚ := r.left + r.width

def Rect.bottom (r : Rect) : ℚ := r.top + r.height

/-- The mutable state of the `App` component: the `useState` cells
(`recording`, `waiting`, `data`, `startTime`, `elapsedTime`) and the
`useRef` cells (`lastPointRef`, `mousePositionRef`).  `armedTimers` counts
the pending `setTimeout` countdown callbacks, so that double-arming of the
countdown timer is observable in the model. -/
structure AppState where
  recording : Bool
  waiting : Bool
  data : List Point
  startTime : Option ℚ
  elapsedTime : ℚ
  lastPoint : Option (ℚ × ℚ)
  mousePosition : Option (ℚ × ℚ)
  armedTimers : ℕ

/-- Lines 119-122 of App.tsx, the Coordinate Mapper: raw pixel offset
`(rawX, rawY)` from the surface's top-left corner is mapped to
`(rawX * scaleX, (rect.height - rawY) * scaleY)`. -/
def mapCoord (rawX rawY scaleX scaleY rectHeight : ℚ) : ℚ × ℚ :=
  (rawX * scaleX, (rectHeight - rawY) * scaleY)

/-- Line 51 of App.tsx: `scaleX = maxX / (image.width * canvasScale)`. -/
def scaleXOf (maxX imageWidth canvasScale : ℚ) : ℚ := maxX / (imageWidth * canvasScale)

/-- Line 52 of App.tsx: `scaleY = maxY / (image.height * canvasScale)`. -/
def scaleYOf (maxY imageHeight canvasScale : ℚ) : ℚ := maxY / (imageHeight * canvasScale)

/-- JS template-literal printing (`${d.x}`) of the 2-decimal rounded values
the app stores: the shortest decimal form, with the fractional part and
trailing zeros omitted when zero.  Faithful to JS `Number`-to-string output
on every multiple of `1/100` (the only values `data` ever holds). -/
def jsNumToString (q : ℚ) : String :=
  let sign := if q < 0 then "-" else ""
  let cents : ℕ := q.num.natAbs * 100 / q.den
  let intPart := cents / 100
  let frac := cents % 100
  if frac = 0 then sign ++ toString intPart
  else if frac % 10 = 0 then sign ++ toString intPart ++ "." ++ toString (frac / 10)
  else if frac < 10 then sign ++ toString intPart ++ ".0" ++ toString frac
  else sign ++ toString intPart ++ "." ++ toString frac

/-- One CSV data row, line 56 of App.tsx: the template literal
`${d.time},${d.x},${d.y}`. -/
def sampleRow (d : Point) : String :=
  toString d.time ++ "," ++ jsNumToString d.x ++ "," ++ jsNumToString d.y

/-- The file handed to `saveAs`: name and text content. -/
structure CsvFile where
  name : String
  content : String
deriving DecidableEq

/-- Lines 54-59 of App.tsx, the Export Function `downloadCSV`: returns early
(no file) when `data` is empty, otherwise joins the header row and one row
per sample with newlines and saves it as `walk_trace.csv`. -/
def downloadCSV (data : List Point) : Option CsvFile :=
  if data.length = 0 then none
  else some { name := "walk_trace.csv",
              content := String.intercalate "\n" ("time,x,y" :: data.map sampleRow) }

/-- Lines 62-87 of App.tsx, the space-key handler: from Idle
(`!recording && !waiting`) it enters the countdown and arms one 3000 ms
timer; from Recording it stops and invokes the Export Function on the
current `data`; otherwise (counting down) it does nothing.  The second
component reports the export action: `none` when the Export Function was
not invoked, `some f` when it was invoked and produced `f`. -/
def handleKeyDown (s : AppState) : AppState × Option (Option CsvFile) :=
  if !s.recording && !s.waiting then
    ({ s with waiting := true, armedTimers := s.armedTimers + 1 }, none)
  else if s.recording then
    ({ s with recording := false }, some (downloadCSV s.data))
  else (s, none)

/-- Lines 67-81 of App.tsx, the countdown callback: clears `data` and
`elapsedTime`, resets `lastPointRef`, captures `startTime = performance.now()`,
redraws the base image (not modelled beyond the `lastPoint` reset) and enters
Recording; the fired timer is no longer armed. -/
def timerElapsed (now : ℚ) (s : AppState) : AppState :=
  { s with data := [], elapsedTime := 0, lastPoint := none,
           startTime := some now, recording := true, waiting := false,
           armedTimers := s.armedTimers - 1 }

/-- Lines 93-95 of App.tsx: a mouse-move event overwrites the single
latest-pointer-position cell. -/
def handleMouseMove (pos : ℚ × ℚ) (s : AppState) : AppState :=
  { s with mousePosition := some pos }

/-- Lines 100-144 of App.tsx, one sampler-interval tick.  The interval only
exists while `recording` is set and `startTime` is truthy (non-null and, JS
falsiness, nonzero), so the tick is the identity otherwise.  If no pointer
position was ever observed the callback returns at once.  Otherwise, when the
pointer lies inside the canvas bounding rectangle (boundary inclusive), the
raw offset is mapped, rounded and appended to `data` and the last-point
marker updated; in every non-early-returning case the elapsed-time display is
refreshed.  `now1` and `now2` are the two `performance.now()` readings of
lines 123 and 140. -/
def samplerTick (scaleX scaleY : ℚ) (rect : Rect) (now1 now2 : ℚ) (s : AppState) : AppState :=
  match s.recording, s.startTime with
  | true, some startTime =>
    if startTime = 0 then s
    else
      match s.mousePosition with
      | none => s
      | some mousePos =>
        let mouseX := mousePos.1
        let mouseY := mousePos.2
        let s1 :=
          if rect.left ≤ mouseX ∧ mouseX ≤ rect.right ∧ rect.top ≤ mouseY ∧ mouseY ≤ rect.bottom then
            let rawX := mouseX - rect.left
            let rawY := mouseY - rect.top
            let p := mapCoord rawX rawY scaleX scaleY rect.height
            { s with data := s.data ++
                       [{ time := jsRound (now1 - startTime),
                          x := jsToFixed2 p.1, y := jsToFixed2 p.2 }],
                     lastPoint := some (rawX, rawY) }
          else s
        { s1 with elapsedTime := (now2 - startTime) / 1000 }
  | _, _ => s

/-- Input consumed by one tick of the Sampler Loop: the pointer-move event
delivered since the previous tick (if any), the bounding rectangle read by
`getBoundingClientRect()`, and the two clock readings. -/
structure TickInput where
  move : Option (ℚ × ℚ)
  rect : Rect
  now1 : ℚ
  now2 : ℚ

/-- Apply an optional pointer-move event to the state. -/
def applyMove (s : AppState) (m : Option (ℚ × ℚ)) : AppState :=
  match m with
  | none => s
  | some pos => handleMouseMove pos s

/-- A run of the Sampler Loop: each tick first sees the pointer-move event
delivered at its boundary, then executes the interval callback. -/
def runTicks (scaleX scaleY : ℚ) : AppState → List TickInput → AppState
  | s, [] => s
  | s, i :: rest =>
      runTicks scaleX scaleY (samplerTick scaleX scaleY i.rect i.now1 i.now2 (applyMove s i.move)) rest

/-- Modelled from the spec (section 8, round-trip property): two logical
points agree within rounding tolerance when each coordinate differs by at
most `1/100`, the step of the app's 2-decimal rounding. -/
def approxEq (p q : ℚ × ℚ) : Prop := |p.1 - q.1| ≤ 1/100 ∧ |p.2 - q.2| ≤ 1/100

/-- Modelled from the spec (section 4.5): `2-decimal fixed formatting` of a
value that is a multiple of `1/100` — always exactly two digits after the
decimal point. -/
def fixed2String (q : ℚ) : String :=
  let sign := if q < 0 then "-" else ""
  let cents : ℕ := q.num.natAbs * 100 / q.den
  let frac := cents % 100
  sign ++ toString (cents / 100) ++ "." ++ (if frac < 10 then "0" else "") ++ toString frac

/-- Modelled from the spec (section 4.5, amended): the CSV data rows, one row
per sample in recorded order, each row `time`, `x`, `y` separated by commas,
`x` and `y` in the shortest decimal form of the already-2-decimal-rounded
values. -/
def csvLinesSpec : List Point → List String
  | [] => []
  | d :: rest =>
      (toString d.time ++ "," ++ jsNumToString d.x ++ "," ++ jsNumToString d.y) :: csvLinesSpec rest

/-- A concrete 100 x 100 surface rectangle at the viewport origin, for the
concrete-input theorems. -/
def rect100 : Rect := { left := 0, top := 0, width := 100, height := 100 }

/-- A concrete state in the middle of a recording session that started at
clock reading 5, with no pointer position observed yet. -/
def recState : AppState :=
  { recording := true, waiting := false, data := [], startTime := some 5,
    elapsedTime := 0, lastPoint := none, mousePosition := none, armedTimers := 0 }

/-- A concrete counting-down state (space was pressed, the 3000 ms timer is
armed, the previous session's samples are still in `data`). -/
def countdownState : AppState :=
  { recording := false, waiting := true, data := [{ time := 3, x := 1, y := 2 }],
    startTime := none, elapsedTime := 0, lastPoint := none, mousePosition := none,
    armedTimers := 1 }

/-- A concrete recording state whose pointer sits outside the surface. -/
def outState : AppState := { recState with mousePosition := some (150, 50) }

/-- A concrete recording state whose pointer sits exactly on the top-left
corner of `rect100`. -/
def cornerState : AppState := { recState with mousePosition := some (0, 0) }

/-- A concrete recording state whose pointer sits at raw offset (30, 40)
inside `rect100`. -/
def mouseState : AppState := { recState with mousePosition := some (30, 40) }

/-- A concrete recording state holding one recorded sample. -/
def recStateWithData : AppState :=
  { recState with data := [{ time := 3, x := 1, y := 2 }], mousePosition := some (50, 50) }

/-- A concrete sample sequence: x and y values are multiples of 1/100. -/
def csvSampleData : List Point :=
  [{ time := 0, x := 5, y := 5 }, { time := 16, x := mkRat 123 100, y := mkRat 7 2 }]

/-- A concrete first tick input: the pointer moved to (50, 50). -/
def tickA : TickInput := { move := some (50, 50), rect := rect100, now1 := 105, now2 := 105 }

/-- A concrete second tick input: no pointer move since the first tick. -/
def tickB : TickInput := { move := none, rect := rect100, now1 := 121, now2 := 122 }

lemma jsRound_eq_floor (q : ℚ) : jsRound q = ⌊q + 1/2⌋ := by
  rw [jsRound, Rat.floor_def, Rat.floor_def']

lemma jsRound_mono {x y : ℚ} (h : x ≤ y) : jsRound x ≤ jsRound y := by
  rw [jsRound_eq_floor, jsRound_eq_floor]
  exact Int.floor_le_floor (by linarith)

lemma jsRound_nonneg {x : ℚ} (h : 0 ≤ x) : 0 ≤ jsRound x := by
  rw [jsRound_eq_floor]
  exact Int.le_floor.mpr (by push_cast; linarith)

lemma samplerTick_not_recording (sX sY : ℚ) (r : Rect) (n1 n2 : ℚ) (s : AppState)
    (h : s.recording = false) : samplerTick sX sY r n1 n2 s = s := by
  simp [samplerTick, h]

lemma samplerTick_no_mouse (sX sY : ℚ) (r : Rect) (n1 n2 : ℚ) (s : AppState)
    (h : s.mousePosition = none) : samplerTick sX sY r n1 n2 s = s := by
  cases hrec : s.recording with
  | false => simp [samplerTick, hrec]
  | true =>
    cases hst : s.startTime with
    | none => simp [samplerTick, hrec, hst]
    | some t0 => by_cases ht : t0 = 0 <;> simp [samplerTick, hrec, hst, h, ht]

lemma samplerTick_data_cases (sX sY : ℚ) (r : Rect) (n1 n2 : ℚ) (s : AppState) (t0 : ℚ)
    (hrec : s.recording = true) (hst : s.startTime = some t0) :
    (samplerTick sX sY r n1 n2 s).data = s.data ∨
    ∃ x y, (samplerTick sX sY r n1 n2 s).data
        = s.data ++ [{ time := jsRound (n1 - t0), x := x, y := y }] := by
  by_cases ht : t0 = 0
  · left; simp [samplerTick, hrec, hst, ht]
  · cases hm : s.mousePosition with
    | none => left; simp [samplerTick, hrec, hst, ht, hm]
    | some mp =>
      by_cases hin : r.left ≤ mp.1 ∧ mp.1 ≤ r.right ∧ r.top ≤ mp.2 ∧ mp.2 ≤ r.bottom
      · right
        refine ⟨jsToFixed2 (mapCoord (mp.1 - r.left) (mp.2 - r.top) sX sY r.height).1,
                jsToFixed2 (mapCoord (mp.1 - r.left) (mp.2 - r.top) sX sY r.height).2, ?_⟩
        simp [samplerTick, hrec, hst, ht, hm, hin]
      · left; simp [samplerTick, hrec, hst, ht, hm, hin]

lemma samplerTick_recording (sX sY : ℚ) (r : Rect) (n1 n2 : ℚ) (s : AppState) :
    (samplerTick sX sY r n1 n2 s).recording = s.recording := by
  cases hrec : s.recording with
  | false => simp [samplerTick, hrec]
  | true =>
    cases hst : s.startTime with
    | none => simp [samplerTick, hrec, hst]
    | some t0 =>
      by_cases ht : t0 = 0
      · simp [samplerTick, hrec, hst, ht]
      · cases hm : s.mousePosition with
        | none => simp [samplerTick, hrec, hst, ht, hm]
        | some mp =>
          by_cases hin : r.left ≤ mp.1 ∧ mp.1 ≤ r.right ∧ r.top ≤ mp.2 ∧ mp.2 ≤ r.bottom <;>
            simp [samplerTick, hrec, hst, ht, hm, hin]

lemma samplerTick_startTime (sX sY : ℚ) (r : Rect) (n1 n2 : ℚ) (s : AppState) :
    (samplerTick sX sY r n1 n2 s).startTime = s.startTime := by
  cases hrec : s.recording with
  | false => simp [samplerTick, hrec]
  | true =>
    cases hst : s.startTime with
    | none => simp [samplerTick, hrec, hst]
    | some t0 =>
      by_cases ht : t0 = 0
      · simp [samplerTick, hrec, hst, ht]
      · cases hm : s.mousePosition with
        | none => simp [samplerTick, hrec, hst, ht, hm]
        | some mp =>
          by_cases hin : r.left ≤ mp.1 ∧ mp.1 ≤ r.right ∧ r.top ≤ mp.2 ∧ mp.2 ≤ r.bottom <;>
            simp [samplerTick, hrec, hst, ht, hm, hin]

lemma applyMove_data (s : AppState) (m : Option (ℚ × ℚ)) : (applyMove s m).data = s.data := by
  cases m <;> rfl

lemma applyMove_recording (s : AppState) (m : Option (ℚ × ℚ)) :
    (applyMove s m).recording = s.recording := by
  cases m <;> rfl

lemma applyMove_startTime (s : AppState) (m : Option (ℚ × ℚ)) :
    (applyMove s m).startTime = s.startTime := by
  cases m <;> rfl

lemma runTicks_inv (sX sY t0 : ℚ) (l : List TickInput) :
    ∀ s : AppState,
      s.recording = true → s.startTime = some t0 →
      (s.data.map Point.time).Pairwise (· ≤ ·) →
      (∀ p ∈ s.data, 0 ≤ p.time) →
      (∀ p ∈ s.data, ∀ i ∈ l, p.time ≤ jsRound (i.now1 - t0)) →
      (∀ i ∈ l, t0 ≤ i.now1) →
      l.Pairwise (fun a b => a.now1 ≤ b.now1) →
      ((runTicks sX sY s l).data.map Point.time).Pairwise (· ≤ ·) ∧
      (∀ p ∈ (runTicks sX sY s l).data, 0 ≤ p.time) ∧
      (runTicks sX sY s l).data.length ≤ s.data.length + l.length := by
  induction l with
  | nil =>
    intro s _ _ hsort hpos _ _ _
    exact ⟨hsort, hpos, by simp [runTicks]⟩
  | cons i rest ih =>
    intro s hrec hst hsort hpos hbound hge hmono
    have hmrec : (applyMove s i.move).recording = true := by rw [applyMove_recording, hrec]
    have hmst : (applyMove s i.move).startTime = some t0 := by rw [applyMove_startTime, hst]
    have hmdata : (applyMove s i.move).data = s.data := applyMove_data s i.move
    have hrun : runTicks sX sY s (i :: rest)
        = runTicks sX sY (samplerTick sX sY i.rect i.now1 i.now2 (applyMove s i.move)) rest := rfl
    rw [hrun]
    rw [List.pairwise_cons] at hmono
    obtain ⟨hmono1, hmono2⟩ := hmono
    rcases samplerTick_data_cases sX sY i.rect i.now1 i.now2 (applyMove s i.move) t0 hmrec hmst
      with hcase | ⟨x, y, hcase⟩ <;>
      rw [hmdata] at hcase
    · have h := ih (samplerTick sX sY i.rect i.now1 i.now2 (applyMove s i.move))
        (by rw [samplerTick_recording, hmrec]) (by rw [samplerTick_startTime, hmst])
        (by rw [hcase]; exact hsort) (by rw [hcase]; exact hpos)
        (by rw [hcase]; exact fun p hp j hj => hbound p hp j (List.mem_cons_of_mem i hj))
        (fun j hj => hge j (List.mem_cons_of_mem i hj)) hmono2
      refine ⟨h.1, h.2.1, ?_⟩
      calc (runTicks sX sY (samplerTick sX sY i.rect i.now1 i.now2 (applyMove s i.move)) rest).data.length
          ≤ (samplerTick sX sY i.rect i.now1 i.now2 (applyMove s i.move)).data.length + rest.length := h.2.2
        _ = s.data.length + rest.length := by rw [hcase]
        _ ≤ s.data.length + (i :: rest).length := by simp
    · have hq0 : (0 : ℤ) ≤ jsRound (i.now1 - t0) :=
        jsRound_nonneg (by have := hge i (List.mem_cons_self i rest); linarith)
      have h := ih (samplerTick sX sY i.rect i.now1 i.now2 (applyMove s i.move))
        (by rw [samplerTick_recording, hmrec]) (by rw [samplerTick_startTime, hmst])
        (by
          rw [hcase, List.map_append, List.pairwise_append]
          refine ⟨hsort, by simp, ?_⟩
          intro a ha b hb
          simp only [List.map_cons, List.map_nil, List.mem_singleton] at hb
          obtain ⟨p, hp, rfl⟩ := List.mem_map.mp ha
          rw [hb]
          exact hbound p hp i (List.mem_cons_self i rest))
        (by
          rw [hcase]
          intro p hp
          rcases List.mem_append.mp hp with hp1 | hp1
          · exact hpos p hp1
          · rw [List.mem_singleton] at hp1; rw [hp1]; exact hq0)
        (by
          rw [hcase]
          intro p hp j hj
          rcases List.mem_append.mp hp with hp1 | hp1
          · exact hbound p hp1 j (List.mem_cons_of_mem i hj)
          · rw [List.mem_singleton] at hp1
            rw [hp1]
            exact jsRound_mono (by have := hmono1 j hj; linarith))
        (fun j hj => hge j (List.mem_cons_of_mem i hj)) hmono2
      refine ⟨h.1, h.2.1, ?_⟩
      calc (runTicks sX sY (samplerTick sX sY i.rect i.now1 i.now2 (applyMove s i.move)) rest).data.length
          ≤ (samplerTick sX sY i.rect i.now1 i.now2 (applyMove s i.move)).data.length + rest.length := h.2.2
        _ = s.data.length + 1 + rest.length := by rw [hcase]; simp
        _ ≤ s.data.length + (i :: rest).length := by simp; omega

lemma samplerTick_data_extend (sX sY : ℚ) (r : Rect) (n1 n2 : ℚ) (s : AppState) :
    ∃ tail, (samplerTick sX sY r n1 n2 s).data = s.data ++ tail := by
  cases hrec : s.recording with
  | false => exact ⟨[], by rw [samplerTick_not_recording sX sY r n1 n2 s hrec]; simp⟩
  | true =>
    cases hst : s.startTime with
    | none => exact ⟨[], by simp [samplerTick, hrec, hst]⟩
    | some t0 =>
      rcases samplerTick_data_cases sX sY r n1 n2 s t0 hrec hst with h | ⟨x, y, h⟩
      · exact ⟨[], by rw [h]; simp⟩
      · exact ⟨[{ time := jsRound (n1 - t0), x := x, y := y }], h⟩

lemma csvLinesSpec_eq_map (data : List Point) : csvLinesSpec data = data.map sampleRow := by
  induction data with
  | nil => rfl
  | cons d rest ih => simp [csvLinesSpec, sampleRow, ih]

/-- C3: in a CountingDown state (`waiting` set, `recording` clear) the space
key is ignored: the state — including the sample sequence and the count of
armed countdown timers — is unchanged and no export is triggered; in
particular there is no transition from CountingDown to Idle. -/
theorem countdown_toggle_ignored (s : AppState)
    (hw : s.waiting = true) (hr : s.recording = false) :
    handleKeyDown s = (s, none) := by
  simp [handleKeyDown, hw, hr]

/-- C3 witness: the space key leaves a concrete counting-down state — with
its prior sample sequence and exactly one armed timer — fully unchanged. -/
theorem countdown_toggle_ignored_witness :
    handleKeyDown countdownState = (countdownState, none) :=
  countdown_toggle_ignored countdownState rfl rfl

/-- C7: stopping a recording whose sample sequence is empty invokes the
Export Function, which is a no-op: it produces no file (and raises no
error — it is a total function returning `none`). -/
theorem export_empty_noop (s : AppState) (hr : s.recording = true) (hd : s.data = []) :
    downloadCSV s.data = none ∧
    handleKeyDown s = ({ s with recording := false }, some none) := by
  constructor
  · rw [hd]; rfl
  · simp [handleKeyDown, hr, downloadCSV, hd]

/-- C7 witness: stopping a concrete empty-sequence recording produces no
file. -/
theorem export_empty_noop_witness :
    downloadCSV recState.data = none ∧
    handleKeyDown recState = ({ recState with recording := false }, some none) :=
  export_empty_noop recState rfl rfl

/-- C9: the Recording-to-Idle transition hands the sample sequence to the
Export Function without clearing it; no event other than the countdown
timer's CountingDown-to-Recording transition clears the sequence (the key
handler and pointer moves preserve it and a tick only appends), and that
transition also resets the last-rendered-point marker and captures
`startTime = now`. -/
theorem stop_keeps_sequence (s : AppState) (hr : s.recording = true) :
    (handleKeyDown s).1.data = s.data ∧
    (handleKeyDown s).2 = some (downloadCSV s.data) ∧
    (handleKeyDown s).1.recording = false ∧
    (∀ s' : AppState, (handleKeyDown s').1.data = s'.data) ∧
    (∀ (pos : ℚ × ℚ) (s' : AppState), (handleMouseMove pos s').data = s'.data) ∧
    (∀ (sX sY : ℚ) (r : Rect) (n1 n2 : ℚ) (s' : AppState),
        ∃ tail, (samplerTick sX sY r n1 n2 s').data = s'.data ++ tail) ∧
    (∀ (t : ℚ) (s' : AppState),
        (timerElapsed t s').data = [] ∧ (timerElapsed t s').lastPoint = none ∧
        (timerElapsed t s').startTime = some t) := by
  refine ⟨?_, ?_, ?_, ?_, ?_, ?_, ?_⟩
  · simp [handleKeyDown, hr]
  · simp [handleKeyDown, hr]
  · simp [handleKeyDown, hr]
  · intro s'
    simp only [handleKeyDown]
    split
    · rfl
    · split <;> rfl
  · intro pos s'; rfl
  · exact samplerTick_data_extend
  · intro t s'; exact ⟨rfl, rfl, rfl⟩

/-- C9 witness: stopping a concrete recording with one sample keeps the
sample in the sequence and hands exactly that sequence to the Export
Function; the countdown-elapsed transition from a concrete state clears the
sequence and resets the marker. -/
theorem stop_keeps_sequence_witness :
    (handleKeyDown recStateWithData).1.data = recStateWithData.data ∧
    (handleKeyDown recStateWithData).2 = some (downloadCSV recStateWithData.data) ∧
    (handleKeyDown recStateWithData).1.recording = false ∧
    (timerElapsed 7 countdownState).data = [] ∧
    (timerElapsed 7 countdownState).lastPoint = none ∧
    (timerElapsed 7 countdownState).startTime = some 7 :=
  ⟨(stop_keeps_sequence recStateWithData rfl).1,
   (stop_keeps_sequence recStateWithData rfl).2.1,
   (stop_keeps_sequence recStateWithData rfl).2.2.1,
   ((stop_keeps_sequence recStateWithData rfl).2.2.2.2.2.2 7 countdownState).1,
   ((stop_keeps_sequence recStateWithData rfl).2.2.2.2.2.2 7 countdownState).2.1,
   ((stop_keeps_sequence recStateWithData rfl).2.2.2.2.2.2 7 countdownState).2.2⟩

/-- C4 counterexample: on a concrete Recording-state tick with no pointer
position ever observed, the interval callback returns early and leaves the
whole state — including the displayed elapsed time — unchanged, whereas the
claim requires the elapsed-time display to be updated to
`(now - startInstant) / 1000 = (1005 - 5) / 1000 = 1` on that tick. -/
theorem tick_no_mouse_cex :
    samplerTick 1 1 rect100 1005 1005 recState = recState ∧
    recState.elapsedTime = 0 ∧ ((1005 : ℚ) - 5) / 1000 ≠ 0 :=
  ⟨samplerTick_no_mouse 1 1 rect100 1005 1005 recState rfl, rfl, by norm_num⟩

/-- C4 (amended): on a Sampler Loop tick during Recording in which no
pointer position has ever been observed, no sample is produced and the
displayed elapsed time is NOT updated either — the tick returns early,
leaving the state unchanged. -/
theorem tick_no_mouse_skips_all (sX sY : ℚ) (r : Rect) (n1 n2 : ℚ) (s : AppState)
    (hrec : s.recording = true) (hm : s.mousePosition = none) :
    samplerTick sX sY r n1 n2 s = s :=
  samplerTick_no_mouse sX sY r n1 n2 s hm

/-- C4 witness: a concrete no-pointer tick leaves the concrete recording
state unchanged. -/
theorem tick_no_mouse_skips_all_witness :
    samplerTick 2 3 rect100 100 200 recState = recState :=
  tick_no_mouse_skips_all 2 3 rect100 100 200 recState rfl rfl

/-- C5: on a Sampler Loop tick during Recording whose observed pointer lies
outside the surface's bounding rectangle in some axis, no sample is appended
and the last-accepted-offset marker is untouched — the state changes only in
its displayed elapsed time, which becomes `(now - startInstant) / 1000`. -/
theorem tick_outside_skips_sample (sX sY : ℚ) (r : Rect) (n1 n2 t0 mx my : ℚ) (s : AppState)
    (hrec : s.recording = true) (hst : s.startTime = some t0) (ht : t0 ≠ 0)
    (hm : s.mousePosition = some (mx, my))
    (hout : mx < r.left ∨ r.right < mx ∨ my < r.top ∨ r.bottom < my) :
    samplerTick sX sY r n1 n2 s = { s with elapsedTime := (n2 - t0) / 1000 } := by
  have hnin : ¬(r.left ≤ mx ∧ mx ≤ r.right ∧ r.top ≤ my ∧ my ≤ r.bottom) := by
    rcases hout with h | h | h | h <;> intro hc <;> rcases hc with ⟨a, b, c, d⟩ <;> linarith
  simp [samplerTick, hrec, hst, ht, hm, hnin]

/-- C5 witness: a concrete tick whose pointer (150, 50) lies right of the
100-wide surface appends nothing and only refreshes the elapsed time to
`(25 - 5) / 1000`. -/
theorem tick_outside_skips_sample_witness :
    samplerTick 1 1 rect100 17 25 outState = { outState with elapsedTime := ((25 : ℚ) - 5) / 1000 } :=
  tick_outside_skips_sample 1 1 rect100 17 25 5 150 50 outState rfl rfl (by norm_num) rfl
    (Or.inr (Or.inl (by norm_num [rect100, Rect.right])))

/-- C10: the containment test of the Sampler Loop is boundary-inclusive — a
pointer position lying exactly on an edge of the surface's bounding
rectangle (and within it on the other axis) is treated as inside and
produces a sample. -/
theorem tick_boundary_inclusive (sX sY : ℚ) (r : Rect) (n1 n2 t0 mx my : ℚ) (s : AppState)
    (hrec : s.recording = true) (hst : s.startTime = some t0) (ht : t0 ≠ 0)
    (hm : s.mousePosition = some (mx, my))
    (hin : r.left ≤ mx ∧ mx ≤ r.right ∧ r.top ≤ my ∧ my ≤ r.bottom)
    (hedge : mx = r.left ∨ mx = r.right ∨ my = r.top ∨ my = r.bottom) :
    (samplerTick sX sY r n1 n2 s).data.length = s.data.length + 1 := by
  simp [samplerTick, hrec, hst, ht, hm, hin]

/-- C10 witness: a concrete pointer sitting exactly on the top-left corner
of the surface produces a sample. -/
theorem tick_boundary_inclusive_witness :
    (samplerTick 1 1 rect100 17 25 cornerState).data.length = cornerState.data.length + 1 :=
  tick_boundary_inclusive 1 1 rect100 17 25 5 0 0 cornerState rfl rfl (by norm_num) rfl
    (by norm_num [rect100, Rect.right, Rect.bottom]) (Or.inl (by norm_num [rect100]))

/-- C1: the Coordinate Mapper sends raw offset `(rawX, rawY)` to
`(rawX * scaleX, (surfaceHeight - rawY) * scaleY)` for all scale factors,
zero and negative ones included, and an in-bounds tick appends exactly the
sample carrying the 2-decimal rounding of that point (the mapper is a pure
function — in this embedding a side effect is not even expressible). -/
theorem coordinate_mapper_on_tick (sX sY : ℚ) (r : Rect) (n1 n2 t0 rawX rawY : ℚ)
    (s : AppState)
    (hrec : s.recording = true) (hst : s.startTime = some t0) (ht : t0 ≠ 0)
    (hm : s.mousePosition = some (r.left + rawX, r.top + rawY))
    (hx0 : 0 ≤ rawX) (hx1 : rawX ≤ r.width) (hy0 : 0 ≤ rawY) (hy1 : rawY ≤ r.height) :
    mapCoord rawX rawY sX sY r.height = (rawX * sX, (r.height - rawY) * sY) ∧
    (samplerTick sX sY r n1 n2 s).data
      = s.data ++ [{ time := jsRound (n1 - t0),
                     x := jsToFixed2 (rawX * sX),
                     y := jsToFixed2 ((r.height - rawY) * sY) }] := by
  have hin : r.left ≤ r.left + rawX ∧ r.left + rawX ≤ r.right ∧
      r.top ≤ r.top + rawY ∧ r.top + rawY ≤ r.bottom := by
    refine ⟨by linarith, ?_, by linarith, ?_⟩
    · rw [Rect.right]; linarith
    · rw [Rect.bottom]; linarith
  refine ⟨rfl, ?_⟩
  simp [samplerTick, hrec, hst, ht, hm, hin, mapCoord, add_sub_cancel_left]

/-- C1 witness: a concrete in-bounds tick at raw offset (30, 40) with a
negative `scaleX` and a zero `scaleY` appends exactly the mapped, rounded
sample — degenerate scale factors do not fail. -/
theorem coordinate_mapper_on_tick_witness :
    mapCoord 30 40 (-2) 0 rect100.height = (30 * (-2), (rect100.height - 40) * 0) ∧
    (samplerTick (-2) 0 rect100 1005 1006 mouseState).data
      = mouseState.data ++ [{ time := jsRound (1005 - 5),
                              x := jsToFixed2 (30 * (-2)),
                              y := jsToFixed2 ((rect100.height - 40) * 0) }] :=
  coordinate_mapper_on_tick (-2) 0 rect100 1005 1006 5 30 40 mouseState rfl rfl
    (by norm_num) (by simp [mouseState, recState, rect100]) (by norm_num)
    (by norm_num [rect100]) (by norm_num) (by norm_num [rect100])

/-- C2 counterexample: with the consistent concrete geometry
`surfaceWidth = surfaceHeight = 100`, `maxX = maxY = 10` (so
`scaleX = scaleY = 10/100`), the bottom-left pointer `(rawX, rawY) = (0, 100)`
is mapped to `(0, 0)`, not approximately `(0, maxY) = (0, 10)`, and the
top-right pointer `(100, 0)` is mapped to `(10, 10)`, not approximately
`(maxX, 0) = (10, 0)`. -/
theorem roundtrip_cex :
    mapCoord 0 100 (scaleXOf 10 100 1) (scaleYOf 10 100 1) 100 = (0, 0) ∧
    mapCoord 100 0 (scaleXOf 10 100 1) (scaleYOf 10 100 1) 100 = (10, 10) ∧
    ¬ approxEq (mapCoord 0 100 (scaleXOf 10 100 1) (scaleYOf 10 100 1) 100) (0, 10) ∧
    ¬ approxEq (mapCoord 100 0 (scaleXOf 10 100 1) (scaleYOf 10 100 1) 100) (10, 0) := by
  refine ⟨?_, ?_, ?_, ?_⟩ <;>
    simp [mapCoord, scaleXOf, scaleYOf, approxEq, Prod.ext_iff] <;> norm_num [abs_le]

/-- C2 (amended): with nonnegative logical bounds and consistent geometry
(`scaleX = maxX / surfaceWidth`, `scaleY = maxY / surfaceHeight`, positive
surface dimensions), the Coordinate Mapper sends the bottom-left pointer
`(0, surfaceHeight)` to exactly `(0, 0)` and the top-right pointer
`(surfaceWidth, 0)` to exactly `(maxX, maxY)` — the spec has the two Y
values swapped. -/
theorem roundtrip_amended (maxX maxY iw ih cs : ℚ)
    (hw : 0 < iw * cs) (hh : 0 < ih * cs) (hx : 0 ≤ maxX) (hy : 0 ≤ maxY) :
    mapCoord 0 (ih * cs) (scaleXOf maxX iw cs) (scaleYOf maxY ih cs) (ih * cs) = (0, 0) ∧
    mapCoord (iw * cs) 0 (scaleXOf maxX iw cs) (scaleYOf maxY ih cs) (ih * cs)
      = (maxX, maxY) := by
  unfold mapCoord scaleXOf scaleYOf
  constructor
  · simp [Prod.ext_iff]
  · rw [Prod.ext_iff]
    constructor
    · field_simp
    · simp only [sub_zero]
      field_simp

/-- C2 amended witness: concrete consistent geometry (image 100 x 50 at
display scale 1, bounds 10 x 20): the bottom-left corner maps to (0, 0) and
the top-right corner maps to (10, 20). -/
theorem roundtrip_amended_witness :
    mapCoord 0 (50 * 1) (scaleXOf 10 100 1) (scaleYOf 20 50 1) (50 * 1) = (0, 0) ∧
    mapCoord (100 * 1) 0 (scaleXOf 10 100 1) (scaleYOf 20 50 1) (50 * 1) = (10, 20) :=
  roundtrip_amended 10 20 100 50 1 (by norm_num) (by norm_num) (by norm_num) (by norm_num)

/-- C6 counterexample: the sample `(time 0, x 5, y 5)` — reachable, e.g. the
center of a 100 x 100 surface with bounds 10 x 10 — is serialized as the row
`0,5,5` because `parseFloat(x.toFixed(2))` drops the trailing zeros before
the template literal prints the number, whereas 2-decimal fixed formatting
of both coordinates would give `0,5.00,5.00`. -/
theorem csv_not_fixed2_cex :
    downloadCSV [{ time := 0, x := 5, y := 5 }]
      = some { name := "walk_trace.csv", content := "time,x,y" ++ "\n" ++ "0,5,5" } ∧
    fixed2String 5 = "5.00" ∧
    ("time,x,y" ++ "\n" ++ "0,5,5" : String)
      ≠ "time,x,y" ++ "\n" ++ "0," ++ fixed2String 5 ++ "," ++ fixed2String 5 := by
  refine ⟨?_, ?_, ?_⟩ <;> decide

/-- C6 (amended): for every non-empty sample sequence the Export Function
produces the CSV payload `walk_trace.csv` whose text is the header row
`time,x,y` followed by exactly one row per sample in recorded order, fields
in base-10 decimal with no thousands separators, x and y printed in the
shortest decimal form of their already-2-decimal-rounded values (trailing
zeros omitted), not in 2-decimal fixed formatting. -/
theorem csv_payload_amended (data : List Point) (h : data ≠ []) :
    downloadCSV data = some { name := "walk_trace.csv",
                              content := String.intercalate "\n"
                                           ("time,x,y" :: csvLinesSpec data) } ∧
    (csvLinesSpec data).length = data.length := by
  constructor
  · rw [downloadCSV, csvLinesSpec_eq_map]
    simp [h]
  · rw [csvLinesSpec_eq_map, List.length_map]

/-- C6 amended witness: a concrete two-sample sequence is exported as the
header plus the two rows `0,5,5` and `16,1.23,3.5`. -/
theorem csv_payload_amended_witness :
    downloadCSV csvSampleData = some { name := "walk_trace.csv",
                                       content := "time,x,y" ++ "\n" ++ "0,5,5"
                                                    ++ "\n" ++ "16,1.23,3.5" } ∧
    (csvLinesSpec csvSampleData).length = csvSampleData.length := by
  have h := csv_payload_amended csvSampleData (by simp [csvSampleData])
  refine ⟨?_, h.2⟩
  rw [h.1]
  decide

/-- C8: starting from the CountingDown-to-Recording transition at clock
reading `t0`, any run of Sampler Loop ticks whose sample-clock readings are
at least `t0` and non-decreasing yields a sample sequence with non-decreasing
integer `time` values, every `time` nonnegative, and length at most the
number of ticks. -/
theorem sampler_sequence_invariants (sX sY t0 : ℚ) (s : AppState) (l : List TickInput)
    (hge : ∀ i ∈ l, t0 ≤ i.now1)
    (hmono : l.Pairwise (fun a b => a.now1 ≤ b.now1)) :
    ((runTicks sX sY (timerElapsed t0 s) l).data.map Point.time).Pairwise (· ≤ ·) ∧
    (∀ p ∈ (runTicks sX sY (timerElapsed t0 s) l).data, 0 ≤ p.time) ∧
    (runTicks sX sY (timerElapsed t0 s) l).data.length ≤ l.length := by
  have h := runTicks_inv sX sY t0 l (timerElapsed t0 s) rfl rfl
    (by simp [timerElapsed]) (by simp [timerElapsed]) (by simp [timerElapsed]) hge hmono
  exact ⟨h.1, h.2.1, by simpa [timerElapsed] using h.2.2⟩

/-- C8 witness: a concrete two-tick recording session started at clock
reading 5 satisfies all three invariants. -/
theorem sampler_sequence_invariants_witness :
    ((runTicks 1 1 (timerElapsed 5 recState) [tickA, tickB]).data.map Point.time).Pairwise (· ≤ ·) ∧
    (∀ p ∈ (runTicks 1 1 (timerElapsed 5 recState) [tickA, tickB]).data, 0 ≤ p.time) ∧
    (runTicks 1 1 (timerElapsed 5 recState) [tickA, tickB]).data.length ≤ 2 :=
  sampler_sequence_invariants 1 1 5 recState [tickA, tickB]
    (by
      intro i hi
      rcases List.mem_cons.mp hi with rfl | hi
      · norm_num [tickA]
      · rcases List.mem_cons.mp hi with rfl | hi
        · norm_num [tickB]
        · cases hi)
    (by
      refine List.pairwise_cons.mpr ⟨?_, List.pairwise_singleton _ _⟩
      intro b hb
      rcases List.mem_cons.mp hb with rfl | hb
      · norm_num [tickA, tickB]
      · cases hb)

end WalkTrace
